import Mathlib

/-!
Shallow embedding of the structural-data core of the Architector repository
(file `architector/io_molecule.py`): the parity-based spin correction, the
molecular-graph construction from distance cutoffs, the bond-order-dict /
graph duality, the `append_ligand` and `remove_atom` mutations, the two
sanity-check routines, the charge/spin snapshot behaviour of the loaders,
and the metal-geometry classification scoring.

Conventions used throughout:
  * Python ints are modelled as `Int` (Python `%` on a positive modulus
    agrees with `Int.emod`); real-valued quantities (charges, radii,
    distances) are modelled as `ℚ`.
  * Bond-order dictionaries (`BO_dict`) are modelled as association lists
    `List ((Nat × Nat) × String)` preserving insertion order, with the
    source's 1-indexed key convention.
  * Dense numpy matrices are modelled either as `List (List Int)` (for the
    mutation routines that use `np.delete`) or as functions `Fin n → Fin n → Int`
    (for `create_mol_graph`), with `gEntry` providing out-of-range-safe access.
-/

namespace Architector

/-! ### Charge/spin parity correction (C1)

From `Molecule.detect_charge_spin` (io_molecule.py lines 628-640) and
`Molecule.calc_suggested_spin` (lines 1079, 1095-1104); the two call sites
contain the identical if/elif chains. -/

/-- Source expression `(np.sum([atom.number for atom in self.ase_atoms]) - charge) % 2`:
the electron-count parity of the structure. -/
def evenOddElectrons (atomicNumbers : List Int) (charge : Int) : Int :=
  (atomicNumbers.sum - charge) % 2

/-- The parity-correction step applied to the spin `uhf`, exactly the
if/elif chain of the source: first chain handles odd parity
(`uhf == 0`, even `uhf < 7`, even `uhf >= 7`), second chain handles
even parity with odd spin / odd parity with even spin. -/
def spinParityCorrect (evenOdd : Int) (uhf : Int) : Int :=
  let u1 :=
    if evenOdd = 1 ∧ uhf = 0 then 1
    else if evenOdd = 1 ∧ uhf < 7 ∧ uhf % 2 = 0 then uhf + 1
    else if evenOdd = 1 ∧ 7 ≤ uhf ∧ uhf % 2 = 0 then uhf - 1
    else uhf
  if evenOdd = 0 ∧ u1 % 2 = 1 then u1 - 1
  else if evenOdd = 1 ∧ u1 % 2 = 0 then u1 + 1
  else u1

/-- C1: Parity postcondition of the spin correction: for every list of
atomic numbers, integral charge, and input spin `uhf ≥ 0`, after the
parity-correction step (shared by `detect_charge_spin` and
`calc_suggested_spin`), odd electron-count parity yields an odd corrected
spin and even parity yields an even corrected spin. -/
theorem C1_parity_postcondition (atomicNumbers : List Int) (charge uhf : Int)
    (huhf : 0 ≤ uhf) :
    (evenOddElectrons atomicNumbers charge = 1 →
      spinParityCorrect (evenOddElectrons atomicNumbers charge) uhf % 2 = 1) ∧
    (evenOddElectrons atomicNumbers charge = 0 →
      spinParityCorrect (evenOddElectrons atomicNumbers charge) uhf % 2 = 0) := by
  constructor <;> intro hpar <;> rw [hpar] <;>
    simp only [spinParityCorrect] <;>
    split_ifs <;> first | omega | (simp only [true_and] at *; omega)

/-- Witness for C1 at a concrete input: one nitrogen atom (Z = 7), charge 0,
input spin 0; parity is odd and the corrected spin is 1. -/
theorem C1_parity_postcondition_witness :
    (0:Int) ≤ 0 ∧
    (evenOddElectrons [7] 0 = 1 →
      spinParityCorrect (evenOddElectrons [7] 0) 0 % 2 = 1) ∧
    (evenOddElectrons [7] 0 = 0 →
      spinParityCorrect (evenOddElectrons [7] 0) 0 % 2 = 0) :=
  ⟨le_refl 0, C1_parity_postcondition [7] 0 0 (le_refl 0)⟩

/-! ### Structural model: atoms, graph as `List (List Int)`, bond-order dict
(C3 `append_ligand`, C7 `remove_atom`, C10 frame property)

`BO_dict` is an association list of 1-indexed key pairs with bond-order
labels, in insertion order; `dict.update` with fresh keys is modelled as
list append (the remapped ligand keys never collide with live host keys). -/

structure MolAtom where
  symbol : String
  initialCharge : ℚ
  deriving DecidableEq, Repr

structure Molecule where
  ase_atoms : List MolAtom
  atom_types : List String
  graph : List (List Int)
  BO_dict : List ((Nat × Nat) × String)
  charge : ℚ
  uhf : ℚ
  xtb_charge : ℚ
  xtb_uhf : ℚ
  dists_sane : Bool
  actinides : List Nat
  actinides_swapped : Bool
  cell : List ℚ
  ase_constraints : List ((Nat × Nat) × ℚ)
  deriving DecidableEq, Repr

/-- Entry `(i, j)` of a dense matrix stored as a list of rows; out-of-range
access yields `0` (used only within the ranges the source indexes). -/
def gEntry (g : List (List Int)) (i j : Nat) : Int :=
  (g.getD i []).getD j 0

/-- Source `Molecule.create_graph_from_bo_dict` (io_molecule.py lines 777-789):
an `n × n` 0/1 matrix with `1` exactly at `(key0 - 1, key1 - 1)` and its
mirror for each 1-indexed bond-order key; an empty dict yields the empty
graph (`[]` in the source). -/
def createGraphFromBOdict (n : Nat) (bo : List ((Nat × Nat) × String)) :
    List (List Int) :=
  if bo.isEmpty then []
  else (List.range n).map (fun i => (List.range n).map (fun j =>
    if bo.any (fun kv =>
        (kv.1.1 = i + 1 ∧ kv.1.2 = j + 1) ∨ (kv.1.1 = j + 1 ∧ kv.1.2 = i + 1))
    then 1 else 0))

/-- Key re-indexing applied by `remove_atom` to surviving bond-order keys:
each component strictly greater than `ind + 1` is decremented. -/
def removeAtomKeyRemap (ind : Nat) (k : Nat × Nat) : Nat × Nat :=
  (if ind + 1 < k.1 then k.1 - 1 else k.1,
   if ind + 1 < k.2 then k.2 - 1 else k.2)

/-- Source `Molecule.remove_atom` (io_molecule.py lines 685-710): delete atom `ind`
from the atom list and atom types, delete row and column `ind` from the
graph, drop bond-order entries whose key contains `ind + 1`, and re-index
the remaining keys. -/
def removeAtom (m : Molecule) (ind : Nat) : Molecule :=
  { m with
    ase_atoms := m.ase_atoms.eraseIdx ind
    graph := (m.graph.eraseIdx ind).map (fun row => row.eraseIdx ind)
    atom_types := m.atom_types.eraseIdx ind
    BO_dict := (m.BO_dict.filter
        (fun kv => decide (kv.1.1 ≠ ind + 1 ∧ kv.1.2 ≠ ind + 1))).map
        (fun kv => (removeAtomKeyRemap ind kv.1, kv.2)) }

structure Ligand where
  bo_dict : List ((Nat × Nat) × String)
  ase_atoms : List MolAtom
  atom_types : List String
  charge : ℚ
  uhf : ℚ
  xtb_charge : ℚ
  xtb_uhf : ℚ
  ca_metal_dist_constraints : List (Nat × ℚ)
  deriving DecidableEq, Repr

/-- The key re-indexing of `append_ligand` (io_molecule.py lines 806-821):
non-coordinating keys shift by the host atom count; coordinating keys
greater than 1 shift by the host atom count minus one, and key index 1
(or below) collapses to 1. -/
def remapLigKey (natoms : Nat) (nonCoordinating : Bool) (k : Nat) : Nat :=
  if nonCoordinating then natoms + k
  else if 1 < k then natoms + k - 1
  else 1

/-- Sum of the fragment's per-atom initial charges
(`lig_ase_atoms.get_initial_charges().sum()`, line 835). -/
def ligChargeSum (lig : Ligand) : ℚ :=
  (lig.ase_atoms.map (fun a => a.initialCharge)).sum

/-- Source `Molecule.append_ligand` (io_molecule.py lines 791-838): remap and merge
the fragment bond-order dict, append atoms/types/constraints, add the
charge and spin fields per the coordination mode, and rebuild the graph
from the merged bond-order dict. -/
def appendLigand (m : Molecule) (lig : Ligand) (nonCoordinating : Bool) :
    Molecule :=
  let natoms := m.ase_atoms.length
  let newligbodict := lig.bo_dict.map (fun kv =>
    ((remapLigKey natoms nonCoordinating kv.1.1,
      remapLigKey natoms nonCoordinating kv.1.2), kv.2))
  let bo := m.BO_dict ++ newligbodict
  let atoms := m.ase_atoms ++ lig.ase_atoms
  let cons := m.ase_constraints ++
    lig.ca_metal_dist_constraints.map (fun c => ((0, natoms + c.1), c.2))
  let base := { m with
    BO_dict := bo
    ase_atoms := atoms
    atom_types := m.atom_types ++ lig.atom_types
    ase_constraints := cons
    graph := createGraphFromBOdict atoms.length bo }
  if nonCoordinating then
    { base with
      uhf := m.uhf + lig.uhf
      charge := m.charge + lig.charge
      xtb_uhf := m.xtb_uhf + lig.xtb_uhf
      xtb_charge := m.xtb_charge + lig.xtb_charge }
  else
    { base with
      charge := m.charge + ligChargeSum lig
      xtb_charge := m.xtb_charge + ligChargeSum lig }

/-! ### Charge/spin snapshot states of the loaders (C4)

Only the four charge/spin fields are tracked; `none` models Python `None`. -/

structure SnapState where
  charge : Option ℚ
  uhf : Option ℚ
  xtb_charge : Option ℚ
  xtb_uhf : Option ℚ
  deriving DecidableEq, Repr

/-- After `read_xyz` (io_molecule.py lines 345-348): all four fields `None`. -/
def readXyzSnap : SnapState := ⟨none, none, none, none⟩

/-- After `read_rxyz` (lines 383-386): all four fields `None`. -/
def readRxyzSnap : SnapState := ⟨none, none, none, none⟩

/-- After `read_mol2` (lines 528-538, 602-605): all four set when the
`Charge: ... Unpaired_Electrons: ...` header token pattern is present,
otherwise all four `None`. -/
def readMol2Snap (header : Option (ℚ × Int × Int × Int)) : SnapState :=
  match header with
  | some (c, s, xs, xc) => ⟨some c, some (s : ℚ), some (xc : ℚ), some (xs : ℚ)⟩
  | none => ⟨none, none, none, none⟩

/-- After `load_ase` (lines 270-285): each field takes the explicit argument
when given, else the sum over the ase container — always assigned. -/
def loadAseSnap (charge uhf xtb_uhf xtb_charge : Option ℚ)
    (initialChargesSum magmomsSum : ℚ) : SnapState :=
  ⟨some (charge.getD initialChargesSum),
   some (uhf.getD magmomsSum),
   some (xtb_charge.getD initialChargesSum),
   some (xtb_uhf.getD magmomsSum)⟩

/-- The final assignments of `detect_charge_spin` (lines 646-649) and
`calc_suggested_spin` (lines 1120-1123): all four fields assigned. -/
def detectAssignSnap (charge uhf xtb_uhf xtb_charge : ℚ) : SnapState :=
  ⟨some charge, some uhf, some xtb_charge, some xtb_uhf⟩

/-- The optional-argument application of `convert_io_molecule` when
`detect_charge_spin` is false (lines 104-117): each field is overwritten
only when the corresponding argument was supplied. -/
def convertApplyArgs (m : SnapState)
    (charge uhf xtb_uhf xtb_charge : Option ℚ) : SnapState :=
  { charge := match charge with | some c => some c | none => m.charge
    uhf := match uhf with | some u => some u | none => m.uhf
    xtb_uhf := match xtb_uhf with | some x => some x | none => m.xtb_uhf
    xtb_charge := match xtb_charge with | some x => some x | none => m.xtb_charge }

/-- The snapshot invariant claimed by the spec: `charge` and `uhf` are both
`None` or both assigned. -/
def chargeSpinSnapOk (m : SnapState) : Prop :=
  (m.charge = none ∧ m.uhf = none) ∨ (m.charge ≠ none ∧ m.uhf ≠ none)

instance (m : SnapState) : Decidable (chargeSpinSnapOk m) := by
  unfold chargeSpinSnapOk; infer_instance

/-! ### Helper lemmas for `eraseIdx`-based matrix reasoning -/

/-- Reading a list after `eraseIdx i`: positions below `i` are unchanged,
positions at or above `i` shift up by one (with `getD` default handling
all out-of-range cases uniformly). -/
theorem getD_eraseIdx {α : Type _} (l : List α) (i j : Nat) (d : α) :
    (l.eraseIdx i).getD j d = if j < i then l.getD j d else l.getD (j + 1) d := by
  induction l generalizing i j with
  | nil => simp [List.eraseIdx]
  | cons x xs ih =>
    cases i with
    | zero => simp [List.eraseIdx]
    | succ i0 =>
      cases j with
      | zero => simp [List.eraseIdx]
      | succ j0 =>
        simp only [List.eraseIdx, List.getD_cons_succ, ih, Nat.succ_lt_succ_iff]

/-- Mapping column deletion over the rows commutes with row access. -/
theorem getD_map_eraseIdxCol (g : List (List Int)) (ind i : Nat) :
    (g.map (fun row => row.eraseIdx ind)).getD i [] = (g.getD i []).eraseIdx ind := by
  induction g generalizing i with
  | nil => simp
  | cons r rs ih =>
    cases i with
    | zero => simp
    | succ i0 =>
      simp only [List.map_cons, List.getD_cons_succ]
      exact ih i0

/-- Index translation from the shrunken matrix back to the original:
indices below the removed row/column are unchanged, the rest shift up. -/
def skipIdx (ind k : Nat) : Nat := if k < ind then k else k + 1

/-- Entries of the shrunken graph are exactly the original entries at the
translated indices. -/
theorem gEntry_removeAtom (m : Molecule) (ind i j : Nat) :
    gEntry (removeAtom m ind).graph i j =
      gEntry m.graph (skipIdx ind i) (skipIdx ind j) := by
  unfold gEntry removeAtom skipIdx
  simp only [getD_map_eraseIdxCol, getD_eraseIdx]
  split_ifs <;> rfl

/-- C7: Postcondition of `remove_atom` for a valid 0-based index: the atom
container loses exactly the atom at `ind` (later atoms shift down), the
graph loses row and column `ind` and stays symmetric, every bond-order
entry whose 1-indexed key contains `ind + 1` is dropped, every remaining
key component greater than `ind + 1` is decremented, and afterwards no
bond-order key references a nonexistent atom. -/
theorem C7_remove_atom_postcondition (m : Molecule) (ind : Nat)
    (hind : ind < m.ase_atoms.length) :
    ((removeAtom m ind).ase_atoms.length = m.ase_atoms.length - 1) ∧
    (∀ j d, (removeAtom m ind).ase_atoms.getD j d =
      if j < ind then m.ase_atoms.getD j d else m.ase_atoms.getD (j + 1) d) ∧
    (∀ i j, gEntry (removeAtom m ind).graph i j =
      gEntry m.graph (skipIdx ind i) (skipIdx ind j)) ∧
    ((∀ i j, gEntry m.graph i j = gEntry m.graph j i) →
      ∀ i j, gEntry (removeAtom m ind).graph i j =
        gEntry (removeAtom m ind).graph j i) ∧
    (∀ kv, kv ∈ (removeAtom m ind).BO_dict ↔
      ∃ kv0, kv0 ∈ m.BO_dict ∧ kv0.1.1 ≠ ind + 1 ∧ kv0.1.2 ≠ ind + 1 ∧
        kv = (removeAtomKeyRemap ind kv0.1, kv0.2)) ∧
    ((∀ kv, kv ∈ m.BO_dict →
        1 ≤ kv.1.1 ∧ kv.1.1 ≤ m.ase_atoms.length ∧
        1 ≤ kv.1.2 ∧ kv.1.2 ≤ m.ase_atoms.length) →
      ∀ kv, kv ∈ (removeAtom m ind).BO_dict →
        1 ≤ kv.1.1 ∧ kv.1.1 ≤ m.ase_atoms.length - 1 ∧
        1 ≤ kv.1.2 ∧ kv.1.2 ≤ m.ase_atoms.length - 1) := by
  have hmem : ∀ kv, kv ∈ (removeAtom m ind).BO_dict ↔
      ∃ kv0, kv0 ∈ m.BO_dict ∧ kv0.1.1 ≠ ind + 1 ∧ kv0.1.2 ≠ ind + 1 ∧
        kv = (removeAtomKeyRemap ind kv0.1, kv0.2) := by
    intro kv
    simp only [removeAtom, List.mem_map, List.mem_filter, decide_eq_true_eq]
    constructor
    · rintro ⟨kv0, ⟨hmem0, hne1, hne2⟩, hkv⟩
      exact ⟨kv0, hmem0, hne1, hne2, hkv.symm⟩
    · rintro ⟨kv0, hmem0, hne1, hne2, hkv⟩
      exact ⟨kv0, ⟨hmem0, hne1, hne2⟩, hkv.symm⟩
  refine ⟨?_, ?_, ?_, ?_, hmem, ?_⟩
  · simp only [removeAtom]
    rw [List.length_eraseIdx]
    simp [hind]
  · intro j d
    simp only [removeAtom]
    exact getD_eraseIdx m.ase_atoms ind j d
  · intro i j
    exact gEntry_removeAtom m ind i j
  · intro hsymm i j
    rw [gEntry_removeAtom, gEntry_removeAtom]
    exact hsymm _ _
  · intro hlive kv hkv
    rcases (hmem kv).mp hkv with ⟨kv0, hmem0, hne1, hne2, hkveq⟩
    rcases hlive kv0 hmem0 with ⟨h1, h2, h3, h4⟩
    subst hkveq
    simp only [removeAtomKeyRemap]
    split_ifs <;> omega

def moleculeEx : Molecule :=
  { ase_atoms := [⟨"Fe", 0⟩, ⟨"O", 0⟩, ⟨"H", 0⟩]
    atom_types := ["Fe", "O", "H"]
    graph := [[0, 1, 0], [1, 0, 1], [0, 1, 0]]
    BO_dict := [((1, 2), "1"), ((2, 3), "1")]
    charge := 2
    uhf := 4
    xtb_charge := 2
    xtb_uhf := 4
    dists_sane := true
    actinides := []
    actinides_swapped := false
    cell := []
    ase_constraints := [] }

/-- Witness for C7 at a concrete input: removing atom 1 from a three-atom
chain; the hypothesis `1 < 3` is discharged concretely. -/
theorem C7_remove_atom_postcondition_witness :
    1 < moleculeEx.ase_atoms.length ∧
    (removeAtom moleculeEx 1).ase_atoms.length = moleculeEx.ase_atoms.length - 1 ∧
    (removeAtom moleculeEx 1).BO_dict = [] :=
  ⟨by decide,
   (C7_remove_atom_postcondition moleculeEx 1 (by decide)).1,
   by decide⟩

/-- C10: Frame property of `remove_atom`: only the atom container, the
graph, the atom-type list and the bond-order dict are mutated; the
actinide index list, the actinides-swapped flag, charge, uhf, xtb_charge,
xtb_uhf, the sanity flag, the cell and the constraints are all left
exactly unchanged (so stored actinide indices are not re-indexed). -/
theorem C10_remove_atom_frame (m : Molecule) (ind : Nat) :
    (removeAtom m ind).actinides = m.actinides ∧
    (removeAtom m ind).actinides_swapped = m.actinides_swapped ∧
    (removeAtom m ind).charge = m.charge ∧
    (removeAtom m ind).uhf = m.uhf ∧
    (removeAtom m ind).xtb_charge = m.xtb_charge ∧
    (removeAtom m ind).xtb_uhf = m.xtb_uhf ∧
    (removeAtom m ind).dists_sane = m.dists_sane ∧
    (removeAtom m ind).cell = m.cell ∧
    (removeAtom m ind).ase_constraints = m.ase_constraints :=
  ⟨rfl, rfl, rfl, rfl, rfl, rfl, rfl, rfl, rfl⟩

def hostC3 : Molecule :=
  { ase_atoms := [⟨"Fe", 0⟩]
    atom_types := ["Fe"]
    graph := []
    BO_dict := []
    charge := 2
    uhf := 4
    xtb_charge := 0
    xtb_uhf := 4
    dists_sane := true
    actinides := []
    actinides_swapped := false
    cell := []
    ase_constraints := [] }

def ligC3 : Ligand :=
  { bo_dict := [((1, 2), "1")]
    ase_atoms := [⟨"O", 1⟩, ⟨"H", 0⟩]
    atom_types := ["O", "H"]
    charge := -1
    uhf := 0
    xtb_charge := -1
    xtb_uhf := 0
    ca_metal_dist_constraints := [] }

/-- C3 counterexample: appending a coordinating fragment also changes the
`xtb_charge` field (io_molecule.py line 837 adds the fragment's initial
charge sum to `self.xtb_charge`), so the claim that only the total charge
is changed fails at this concrete input. -/
theorem C3_append_ligand_counterexample :
    (appendLigand hostC3 ligC3 false).xtb_charge ≠ hostC3.xtb_charge := by
  show (0 : ℚ) + (1 + (0 + 0)) ≠ 0
  norm_num

/-- C3 amended: when appended as coordinating, fragment bond-order key
index 1 maps to 1 and key index `k > 1` maps to `n + k - 1`; the charge
AND the xtb_charge are each increased by the fragment's summed per-atom
initial charges while the spin fields (`uhf`, `xtb_uhf`) are unchanged;
when appended as non-coordinating, every key index `k` maps to `n + k`
and charge, uhf, xtb_charge and xtb_uhf are each increased by the
fragment's corresponding values; afterwards the graph is rebuilt from the
merged bond-order mapping. -/
theorem C3_append_ligand_amended (m : Molecule) (lig : Ligand) :
    (∀ k, remapLigKey m.ase_atoms.length false k =
      if 1 < k then m.ase_atoms.length + k - 1 else 1) ∧
    (∀ k, remapLigKey m.ase_atoms.length true k = m.ase_atoms.length + k) ∧
    ((appendLigand m lig false).BO_dict =
      m.BO_dict ++ lig.bo_dict.map (fun kv =>
        ((remapLigKey m.ase_atoms.length false kv.1.1,
          remapLigKey m.ase_atoms.length false kv.1.2), kv.2))) ∧
    ((appendLigand m lig true).BO_dict =
      m.BO_dict ++ lig.bo_dict.map (fun kv =>
        ((remapLigKey m.ase_atoms.length true kv.1.1,
          remapLigKey m.ase_atoms.length true kv.1.2), kv.2))) ∧
    ((appendLigand m lig false).charge = m.charge + ligChargeSum lig) ∧
    ((appendLigand m lig false).xtb_charge = m.xtb_charge + ligChargeSum lig) ∧
    ((appendLigand m lig false).uhf = m.uhf) ∧
    ((appendLigand m lig false).xtb_uhf = m.xtb_uhf) ∧
    ((appendLigand m lig true).charge = m.charge + lig.charge) ∧
    ((appendLigand m lig true).uhf = m.uhf + lig.uhf) ∧
    ((appendLigand m lig true).xtb_charge = m.xtb_charge + lig.xtb_charge) ∧
    ((appendLigand m lig true).xtb_uhf = m.xtb_uhf + lig.xtb_uhf) ∧
    (∀ b, (appendLigand m lig b).graph =
      createGraphFromBOdict (appendLigand m lig b).ase_atoms.length
        (appendLigand m lig b).BO_dict) :=
  ⟨fun _ => rfl, fun _ => rfl, rfl, rfl, rfl, rfl, rfl, rfl, rfl, rfl, rfl, rfl,
   fun b => by cases b <;> rfl⟩

/-- C4 counterexample: converting an xyz-style input with only the charge
argument supplied (`charge = 5`, `uhf` omitted, `detect_charge_spin`
false) leaves `charge` assigned and `uhf` `None`, breaking the claimed
both-None-or-both-assigned snapshot invariant. -/
theorem C4_snapshot_counterexample :
    ¬ chargeSpinSnapOk (convertApplyArgs readXyzSnap (some 5) none none none) := by
  decide

/-- C4 amended: the format reads (`read_xyz`, `read_rxyz`, `read_mol2`),
`load_ase`, and the final assignments of `detect_charge_spin` and
`calc_suggested_spin` each leave charge and uhf both None or both
assigned; the optional-argument application of `convert_io_molecule`
preserves the invariant only when the charge and uhf arguments are both
supplied or both omitted — supplying exactly one can leave exactly one
field set. -/
theorem C4_snapshot_amended (header : Option (ℚ × Int × Int × Int))
    (m : SnapState) (chargeArg uhfArg xtbUhfArg xtbChargeArg : Option ℚ)
    (ics mms : ℚ)
    (hm : chargeSpinSnapOk m)
    (hargs : chargeArg.isSome = uhfArg.isSome) :
    chargeSpinSnapOk readXyzSnap ∧
    chargeSpinSnapOk readRxyzSnap ∧
    chargeSpinSnapOk (readMol2Snap header) ∧
    chargeSpinSnapOk (loadAseSnap chargeArg uhfArg xtbUhfArg xtbChargeArg ics mms) ∧
    chargeSpinSnapOk (detectAssignSnap ics mms ics mms) ∧
    chargeSpinSnapOk (convertApplyArgs m chargeArg uhfArg xtbUhfArg xtbChargeArg) := by
  refine ⟨Or.inl ⟨rfl, rfl⟩, Or.inl ⟨rfl, rfl⟩, ?_, ?_, ?_, ?_⟩
  · rcases header with _ | ⟨c, s, xs, xc⟩
    · exact Or.inl ⟨rfl, rfl⟩
    · exact Or.inr ⟨fun h => Option.noConfusion h, fun h => Option.noConfusion h⟩
  · exact Or.inr ⟨fun h => Option.noConfusion h, fun h => Option.noConfusion h⟩
  · exact Or.inr ⟨fun h => Option.noConfusion h, fun h => Option.noConfusion h⟩
  · rcases chargeArg with _ | c <;> rcases uhfArg with _ | u
    · exact hm
    · simp at hargs
    · simp at hargs
    · exact Or.inr ⟨fun h => Option.noConfusion h, fun h => Option.noConfusion h⟩

/-- Witness for C4 amended at a concrete input: both optional arguments
supplied on an xyz read. -/
theorem C4_snapshot_amended_witness :
    chargeSpinSnapOk readXyzSnap ∧
    (some (5:ℚ)).isSome = (some (0:ℚ)).isSome ∧
    chargeSpinSnapOk (convertApplyArgs readXyzSnap (some 5) (some 0) none none) :=
  ⟨by decide, rfl,
   (C4_snapshot_amended none readXyzSnap (some 5) (some 0) none none 0 0
     (by decide) rfl).2.2.2.2.2⟩

/-! ### Bonding graph construction: create_mol_graph (C5)

Source `Molecule.create_mol_graph` (io_molecule.py lines 720-753). The
interatomic distance matrix (`np.linalg.norm` over coordinate differences)
is abstracted as a function `dmat`, assumed symmetric with zero diagonal
exactly as the norm computation guarantees; the tabulated radii
`io_ptable.rcov1` become the function `rcov`. -/

def numMetals (n : Nat) (isMetal : Fin n → Bool) : Nat :=
  (Finset.univ.filter (fun i : Fin n => isMetal i = true)).card

/-- Entry `(i, j)` of the graph built by `create_mol_graph`: mark 1 where
`act_dist_mat - cutoff_dist_mat < 0`, subtract the identity matrix, then
zero every distinct metal-metal pair when more than one metal atom is
present and metal-metal bonds are not allowed. -/
def createMolGraph (n : Nat) (rcov : Fin n → ℚ) (dmat : Fin n → Fin n → ℚ)
    (isMetal : Fin n → Bool) (skin : ℚ) (allowMMBonds : Bool)
    (i j : Fin n) : Int :=
  let base : Int :=
    (if dmat i j - ((rcov i + skin) + (rcov j + skin)) < 0 then 1 else 0)
    - (if i = j then 1 else 0)
  if 1 < numMetals n isMetal ∧ allowMMBonds = false ∧
      isMetal i = true ∧ isMetal j = true ∧ i ≠ j then 0
  else base

/-- The key set produced by `create_BO_dict` (lines 768-775) from a graph:
the pairs `(b1, b2)` with `b2 > b1` and a nonzero graph entry (the source
stores them 1-indexed with bond-order label 1). -/
def createBOdictKeys (n : Nat) (g : Fin n → Fin n → Int) :
    Finset (Fin n × Fin n) :=
  Finset.univ.filter (fun p : Fin n × Fin n => p.1 < p.2 ∧ g p.1 p.2 ≠ 0)

/-- C5: Bonding-graph construction contract: `create_mol_graph` with skin
`s` produces a symmetric 0/1 adjacency matrix in which distinct atoms are
bonded iff their distance is strictly below `(rcov i + s) + (rcov j + s)`,
the diagonal is zero, metal-metal pairs are forced to 0 when more than one
metal is present and such bonds are not allowed, the derived bond-order
keys are exactly the edges, and a single-atom structure yields a zero
matrix. Stated under positive per-atom cutoffs and the symmetry/zero
diagonal of the geometric distance matrix. -/
theorem C5_create_mol_graph (n : Nat) (rcov : Fin n → ℚ)
    (dmat : Fin n → Fin n → ℚ) (isMetal : Fin n → Bool) (skin : ℚ)
    (allowMMBonds : Bool)
    (hcut : ∀ i, 0 < rcov i + skin)
    (hsym : ∀ i j, dmat i j = dmat j i)
    (hdiag : ∀ i, dmat i i = 0) :
    (∀ i j, createMolGraph n rcov dmat isMetal skin allowMMBonds i j =
      createMolGraph n rcov dmat isMetal skin allowMMBonds j i) ∧
    (∀ i j, createMolGraph n rcov dmat isMetal skin allowMMBonds i j = 0 ∨
      createMolGraph n rcov dmat isMetal skin allowMMBonds i j = 1) ∧
    (∀ i, createMolGraph n rcov dmat isMetal skin allowMMBonds i i = 0) ∧
    (∀ i j, i ≠ j →
      ¬(1 < numMetals n isMetal ∧ allowMMBonds = false ∧
        isMetal i = true ∧ isMetal j = true) →
      (createMolGraph n rcov dmat isMetal skin allowMMBonds i j = 1 ↔
        dmat i j < (rcov i + skin) + (rcov j + skin))) ∧
    (∀ i j, i ≠ j → 1 < numMetals n isMetal → allowMMBonds = false →
      isMetal i = true → isMetal j = true →
      createMolGraph n rcov dmat isMetal skin allowMMBonds i j = 0) ∧
    (∀ p : Fin n × Fin n,
      p ∈ createBOdictKeys n (createMolGraph n rcov dmat isMetal skin allowMMBonds) ↔
      p.1 < p.2 ∧ createMolGraph n rcov dmat isMetal skin allowMMBonds p.1 p.2 = 1) ∧
    (n = 1 → ∀ i j, createMolGraph n rcov dmat isMetal skin allowMMBonds i j = 0) := by
  have hbase_diag : ∀ i,
      createMolGraph n rcov dmat isMetal skin allowMMBonds i i = 0 := by
    intro i
    have hc : dmat i i - ((rcov i + skin) + (rcov i + skin)) < 0 := by
      have h := hcut i
      rw [hdiag i]
      linarith
    simp only [createMolGraph]
    split_ifs with h1 h2 h3 <;>
      first
      | rfl
      | norm_num
      | exact absurd hc (by assumption)
      | exact absurd rfl (by assumption)
  have h01 : ∀ i j, createMolGraph n rcov dmat isMetal skin allowMMBonds i j = 0 ∨
      createMolGraph n rcov dmat isMetal skin allowMMBonds i j = 1 := by
    intro i j
    by_cases hij : i = j
    · subst hij
      exact Or.inl (hbase_diag i)
    · simp only [createMolGraph]
      split_ifs <;>
        first
        | omega
        | exact absurd (by assumption) hij
  have hsymG : ∀ i j, createMolGraph n rcov dmat isMetal skin allowMMBonds i j =
      createMolGraph n rcov dmat isMetal skin allowMMBonds j i := by
    intro i j
    by_cases hij : i = j
    · subst hij; rfl
    · simp only [createMolGraph]
      have e1 : (rcov i + skin) + (rcov j + skin) =
          (rcov j + skin) + (rcov i + skin) := by ring
      have hEq : (i = j) ↔ (j = i) := eq_comm
      have hMM : (1 < numMetals n isMetal ∧ allowMMBonds = false ∧
          isMetal i = true ∧ isMetal j = true ∧ i ≠ j) ↔
          (1 < numMetals n isMetal ∧ allowMMBonds = false ∧
          isMetal j = true ∧ isMetal i = true ∧ j ≠ i) := by
        constructor <;> rintro ⟨a, b, c, d, e⟩ <;>
          exact ⟨a, b, d, c, fun h => e h.symm⟩
      rw [hsym i j, e1]
      simp only [hMM, hEq]
  refine ⟨hsymG, h01, hbase_diag, ?_, ?_, ?_, ?_⟩
  · intro i j hij hnm
    simp only [createMolGraph]
    rw [if_neg (fun h => hnm ⟨h.1, h.2.1, h.2.2.1, h.2.2.2.1⟩), if_neg hij]
    rw [sub_zero]
    split_ifs with hd
    · simpa using sub_neg.mp hd
    · rw [sub_neg] at hd
      simp [hd]
  · intro i j hij h1 h2 h3 h4
    simp only [createMolGraph]
    rw [if_pos ⟨h1, h2, h3, h4, hij⟩]
  · intro p
    simp only [createBOdictKeys, Finset.mem_filter, Finset.mem_univ, true_and]
    constructor
    · rintro ⟨hlt, hne⟩
      rcases h01 p.1 p.2 with h | h
      · exact absurd h hne
      · exact ⟨hlt, h⟩
    · rintro ⟨hlt, h1⟩
      refine ⟨hlt, ?_⟩
      rw [h1]
      exact one_ne_zero
  · intro h1 i j
    subst h1
    have hij : i = j := by
      have hi := i.isLt
      have hj := j.isLt
      apply Fin.ext
      omega
    rw [hij]
    exact hbase_diag j

def rcovW : Fin 2 → ℚ := fun _ => 7/10

def skinW : ℚ := 1/5

def dmatW : Fin 2 → Fin 2 → ℚ := fun i j => if i = j then 0 else 2

def isMetalW : Fin 2 → Bool := fun _ => false

/-- Witness for C5 at a concrete input: two nonmetal atoms 2 apart with
covalent radius 7/10 and skin 1/5; all three hypotheses hold and the
diagonal of the produced graph is zero. -/
theorem C5_create_mol_graph_witness :
    (∀ i : Fin 2, 0 < rcovW i + skinW) ∧
    (∀ i j, dmatW i j = dmatW j i) ∧
    (∀ i, dmatW i i = 0) ∧
    (∀ i, createMolGraph 2 rcovW dmatW isMetalW skinW false i i = 0) :=
  ⟨fun i => by norm_num [rcovW, skinW],
   fun i j => by fin_cases i <;> fin_cases j <;> rfl,
   fun i => by simp [dmatW],
   (C5_create_mol_graph 2 rcovW dmatW isMetalW skinW false
      (fun i => by norm_num [rcovW, skinW])
      (fun i j => by fin_cases i <;> fin_cases j <;> rfl)
      (fun i => by simp [dmatW])).2.2.1⟩

/-! ### Bond-order dict / graph round-trip (C6) -/

/-- Source `Molecule.create_BO_dict` (io_molecule.py lines 755-775) applied
to a dense graph stored as a list of rows: every pair `b1 < b2` with a
nonzero entry becomes the 1-indexed key `(b1+1, b2+1)` with bond-order
label 1 (the csgraph nonzero scan of the source). -/
def createBOdictFromGraph (g : List (List Int)) : List ((Nat × Nat) × String) :=
  (List.range g.length).flatMap (fun i =>
    (List.range g.length).filterMap (fun j =>
      if i < j ∧ gEntry g i j ≠ 0 then some ((i + 1, j + 1), "1") else none))

theorem getD_map_range {α : Type _} (n i : Nat) (hi : i < n) (f : Nat → α) (d : α) :
    ((List.range n).map f).getD i d = f i := by
  rw [List.getD_eq_getElem?_getD, List.getElem?_map, List.getElem?_range hi]
  rfl

theorem length_createGraphFromBOdict (n : Nat) (bo : List ((Nat × Nat) × String))
    (hne : ¬bo.isEmpty = true) :
    (createGraphFromBOdict n bo).length = n := by
  rw [createGraphFromBOdict, if_neg hne]
  simp

theorem gEntry_createGraphFromBOdict (n : Nat) (bo : List ((Nat × Nat) × String))
    (hne : ¬bo.isEmpty = true) (i j : Nat) (hi : i < n) (hj : j < n) :
    gEntry (createGraphFromBOdict n bo) i j =
      if bo.any (fun kv => (kv.1.1 = i + 1 ∧ kv.1.2 = j + 1) ∨
          (kv.1.1 = j + 1 ∧ kv.1.2 = i + 1)) = true then 1 else 0 := by
  unfold gEntry createGraphFromBOdict
  rw [if_neg hne, getD_map_range n i hi, getD_map_range n j hj]

theorem mem_createBOdictFromGraph (g : List (List Int))
    (kv : (Nat × Nat) × String) :
    kv ∈ createBOdictFromGraph g ↔
      ∃ i j, i < g.length ∧ j < g.length ∧ i < j ∧ gEntry g i j ≠ 0 ∧
        kv = ((i + 1, j + 1), "1") := by
  unfold createBOdictFromGraph
  simp only [List.mem_flatMap, List.mem_filterMap, List.mem_range,
    Option.ite_none_right_eq_some, Option.some.injEq]
  constructor
  · rintro ⟨i, hi, j, hj, ⟨hlt, hne0⟩, hkv⟩
    exact ⟨i, j, hi, hj, hlt, hne0, hkv.symm⟩
  · rintro ⟨i, j, hi, hj, hlt, hne0, hkv⟩
    exact ⟨i, hi, j, hj, ⟨hlt, hne0⟩, hkv.symm⟩

/-- C6: Round-trip between bond-order mapping and graph: for every
non-empty bond-order mapping whose 1-indexed keys reference live, distinct
atoms, building the graph with `create_graph_from_bo_dict` and then
regenerating the mapping with `create_BO_dict` yields exactly the same set
of unordered index-pair keys, every label flattened to 1: every original
key reappears sorted, and every regenerated key is an original key in one
of its two orientations. -/
theorem C6_bo_graph_roundtrip (n : Nat) (bo : List ((Nat × Nat) × String))
    (hne : bo ≠ [])
    (hlive : ∀ kv ∈ bo, 1 ≤ kv.1.1 ∧ kv.1.1 ≤ n ∧ 1 ≤ kv.1.2 ∧ kv.1.2 ≤ n ∧
      kv.1.1 ≠ kv.1.2) :
    (∀ kv ∈ bo,
      ((min kv.1.1 kv.1.2, max kv.1.1 kv.1.2), "1") ∈
        createBOdictFromGraph (createGraphFromBOdict n bo)) ∧
    (∀ kv ∈ createBOdictFromGraph (createGraphFromBOdict n bo),
      kv.2 = "1" ∧
      (kv.1 ∈ bo.map Prod.fst ∨ (kv.1.2, kv.1.1) ∈ bo.map Prod.fst)) := by
  have hbool : ¬bo.isEmpty = true := by
    simpa [List.isEmpty_iff] using hne
  have hlen := length_createGraphFromBOdict n bo hbool
  constructor
  · intro kv hkv
    rcases hlive kv hkv with ⟨ha1, ha2, hb1, hb2, hab⟩
    rw [mem_createBOdictFromGraph]
    refine ⟨min kv.1.1 kv.1.2 - 1, max kv.1.1 kv.1.2 - 1, ?_, ?_, ?_, ?_, ?_⟩
    · omega
    · omega
    · omega
    · rw [gEntry_createGraphFromBOdict n bo hbool _ _ (by omega) (by omega)]
      rw [if_pos]
      · exact one_ne_zero
      · rw [List.any_eq_true]
        refine ⟨kv, hkv, ?_⟩
        rw [decide_eq_true_eq]
        rcases Nat.lt_or_ge kv.1.1 kv.1.2 with h | h
        · left
          constructor <;> omega
        · right
          constructor <;> omega
    · have e1 : min kv.1.1 kv.1.2 - 1 + 1 = min kv.1.1 kv.1.2 := by omega
      have e2 : max kv.1.1 kv.1.2 - 1 + 1 = max kv.1.1 kv.1.2 := by omega
      rw [e1, e2]
  · intro kv hkv
    rw [mem_createBOdictFromGraph] at hkv
    rcases hkv with ⟨i, j, hi, hj, hij, hne0, hkveq⟩
    rw [hlen] at hi hj
    rw [gEntry_createGraphFromBOdict n bo hbool i j hi hj] at hne0
    subst hkveq
    refine ⟨rfl, ?_⟩
    by_cases hany : bo.any (fun kv => (kv.1.1 = i + 1 ∧ kv.1.2 = j + 1) ∨
        (kv.1.1 = j + 1 ∧ kv.1.2 = i + 1)) = true
    · rw [List.any_eq_true] at hany
      rcases hany with ⟨kv0, hkv0, hp⟩
      rw [decide_eq_true_eq] at hp
      rcases hp with ⟨h1, h2⟩ | ⟨h1, h2⟩
      · left
        rw [List.mem_map]
        exact ⟨kv0, hkv0, by rw [Prod.ext_iff]; exact ⟨h1, h2⟩⟩
      · right
        rw [List.mem_map]
        exact ⟨kv0, hkv0, by rw [Prod.ext_iff]; exact ⟨h1, h2⟩⟩
    · rw [if_neg hany] at hne0
      exact absurd rfl hne0

def boW : List ((Nat × Nat) × String) := [((1, 2), "2")]

/-- Witness for C6 at a concrete input: a single bond with label 2 between
atoms 1 and 2 of a two-atom structure; the regenerated mapping contains
the same key with label 1. -/
theorem C6_bo_graph_roundtrip_witness :
    boW ≠ [] ∧
    (∀ kv ∈ boW, 1 ≤ kv.1.1 ∧ kv.1.1 ≤ 2 ∧ 1 ≤ kv.1.2 ∧ kv.1.2 ≤ 2 ∧
      kv.1.1 ≠ kv.1.2) ∧
    (∀ kv ∈ boW,
      ((min kv.1.1 kv.1.2, max kv.1.1 kv.1.2), "1") ∈
        createBOdictFromGraph (createGraphFromBOdict 2 boW)) := by
  have h1 : boW ≠ [] := by simp [boW]
  have h2 : ∀ kv ∈ boW, 1 ≤ kv.1.1 ∧ kv.1.1 ≤ 2 ∧ 1 ≤ kv.1.2 ∧ kv.1.2 ≤ 2 ∧
      kv.1.1 ≠ kv.1.2 := by
    intro kv hkv
    simp only [boW, List.mem_singleton] at hkv
    subst hkv
    exact ⟨by norm_num, by norm_num, by norm_num, by norm_num, by norm_num⟩
  exact ⟨h1, h2, (C6_bo_graph_roundtrip 2 boW h1 h2).1⟩

/-! ### Sanity checks (C2, C8)

Source `Molecule.graph_sanity_checks` (io_molecule.py lines 840-914) and
`Molecule.dist_sanity_checks` (lines 916-1006), modelled at default
parameters (`run_check` true). Each position coordinate is an `Option ℚ`,
with `none` standing for NaN. Distances enter the source only through
comparisons against nonnegative thresholds, so they are represented by
their exact squares (`atomDist2`), and each threshold by its square, which
preserves every comparison the source makes. -/

structure CheckAtom where
  pos : List (Option ℚ)
  rcov : ℚ
  isMetal : Bool
  deriving DecidableEq, Repr

instance : Inhabited CheckAtom := ⟨⟨[], 0, false⟩⟩

/-- Source condition `np.any(np.isnan(posits))`. -/
def hasNaNPosit (atoms : List CheckAtom) : Bool :=
  atoms.any (fun a => a.pos.any (fun c => c.isNone))

/-- Index of the unique metal atom: the source sets `m_ind` only when
exactly one metal index is found (`len(m_inds) == 1`); with zero or
several metals `m_ind` stays `None`. -/
def singleMetalInd (atoms : List CheckAtom) : Option Nat :=
  let m_inds := (List.range atoms.length).filter
    (fun i => ((atoms[i]?).map (fun a => a.isMetal)).getD false)
  if m_inds.length = 1 then m_inds.head? else none

/-- Covalent radii used by `graph_sanity_checks` (lines 899-902): with a
single metal and a supplied custom radius, the custom radius replaces the
tabulated one only when it is at least the tabulated radius
(`if mrad >= cov_radii[m_ind]`). -/
def covRadiiGraphCheck (atoms : List CheckAtom) (mrad : Option ℚ) : List ℚ :=
  let base := atoms.map (fun a => a.rcov)
  match singleMetalInd atoms, mrad with
  | some m, some r => if base.getD m 0 ≤ r then base.set m r else base
  | _, _ => base

/-- Covalent radii used by `dist_sanity_checks` (lines 984-986): with a
single metal and a supplied custom radius, the custom radius replaces the
tabulated one unconditionally. -/
def covRadiiDistCheck (atoms : List CheckAtom) (mrad : Option ℚ) : List ℚ :=
  let base := atoms.map (fun a => a.rcov)
  match singleMetalInd atoms, mrad with
  | some m, some r => base.set m r
  | _, _ => base

/-- Numeric value of a position once the NaN check has passed. -/
def coordVal (a : CheckAtom) : List ℚ := a.pos.map (fun c => c.getD 0)

/-- Squared Euclidean distance between coordinate lists. -/
def dist2 (p q : List ℚ) : ℚ := ((p.zip q).map (fun c => (c.1 - c.2) ^ 2)).sum

def atomDist2 (atoms : List CheckAtom) (i j : Nat) : ℚ :=
  dist2 (coordVal (atoms.getD i default)) (coordVal (atoms.getD j default))

/-- Source condition `all_dists[i,j] > factor*(cov_radii[i]+cov_radii[j])`
for the 1-indexed bond-order key `key`, compared through squares. -/
def graphViol (atoms : List CheckAtom) (radii : List ℚ) (factor : ℚ)
    (key : Nat × Nat) : Bool :=
  decide ((factor * (radii.getD (key.1 - 1) 0 + radii.getD (key.2 - 1) 0)) ^ 2 <
    atomDist2 atoms (key.1 - 1) (key.2 - 1))

structure GraphCheckResult where
  sane : Bool
  nanFlag : Bool
  cutoffRec : Option ℚ
  pairRec : Option ((Nat × Nat) × ℚ)
  deriving DecidableEq, Repr

/-- The check phase of `graph_sanity_checks` (lines 877-914) at default
parameters: single atoms are skipped, a NaN position short-circuits to
unsane, otherwise the bond-order keys are scanned in order and the first
violating pair is recorded (the source `break`s there); the recorded ratio
is represented by its square. -/
def graphSanityChecks (atoms : List CheckAtom) (keys : List (Nat × Nat))
    (factor : ℚ) (mrad : Option ℚ) (priorSane : Bool) : GraphCheckResult :=
  if atoms.length ≤ 1 then ⟨priorSane, false, none, none⟩
  else if hasNaNPosit atoms then ⟨false, true, none, none⟩
  else
    let radii := covRadiiGraphCheck atoms mrad
    match keys.find? (fun k => graphViol atoms radii factor k) with
    | some k =>
      ⟨false, false, some factor,
        some ((k.1 - 1, k.2 - 1),
          atomDist2 atoms (k.1 - 1) (k.2 - 1) /
            (radii.getD (k.1 - 1) 0 + radii.getD (k.2 - 1) 0) ^ 2)⟩
    | none => ⟨priorSane, false, none, none⟩

def atomsC2 : List CheckAtom :=
  [⟨[some 0, some 0, some 0], 2, true⟩,
   ⟨[some 2, some 0, some 0], 7/10, false⟩]

/-- C2 counterexample: with exactly one metal atom (tabulated radius 2)
and custom radius 1 supplied, `graph_sanity_checks` keeps the tabulated
radius in its cutoff radii (the source substitutes only when
`mrad >= cov_radii[m_ind]`), so the radii it evaluates differ from the
claimed custom-substituted radii. -/
theorem C2_custom_radius_counterexample :
    covRadiiGraphCheck atomsC2 (some 1) ≠
      (atomsC2.map (fun a => a.rcov)).set 0 1 := by
  have hm : singleMetalInd atomsC2 = some 0 := rfl
  have hL : covRadiiGraphCheck atomsC2 (some 1) = [2, 7/10] := by
    have hle : ¬((atomsC2.map (fun a => a.rcov)).getD 0 0 ≤ 1) := by
      show ¬((2:ℚ) ≤ 1)
      norm_num
    simp only [covRadiiGraphCheck, hm]
    rw [if_neg hle]
    rfl
  rw [hL]
  have hR : (atomsC2.map (fun a => a.rcov)).set 0 1 = [1, 7/10] := rfl
  rw [hR]
  intro hcontra
  simp only [List.cons.injEq] at hcontra
  exact absurd hcontra.1 (by norm_num)

/-- C2 amended: with exactly one metal atom at index `m` and a custom
radius `r` supplied, `dist_sanity_checks` always uses `r` in place of the
tabulated covalent radius for that atom (and only that atom), while
`graph_sanity_checks` uses `r` only when `r` is at least the tabulated
radius, keeping the tabulated radius otherwise. -/
theorem C2_custom_radius_amended (atoms : List CheckAtom) (m : Nat) (r : ℚ)
    (hm : singleMetalInd atoms = some m) :
    (covRadiiDistCheck atoms (some r) =
      (atoms.map (fun a => a.rcov)).set m r) ∧
    (∀ i, i ≠ m → (covRadiiDistCheck atoms (some r)).getD i 0 =
      (atoms.map (fun a => a.rcov)).getD i 0) ∧
    (covRadiiGraphCheck atoms (some r) =
      if (atoms.map (fun a => a.rcov)).getD m 0 ≤ r
      then (atoms.map (fun a => a.rcov)).set m r
      else atoms.map (fun a => a.rcov)) := by
  refine ⟨?_, ?_, ?_⟩
  · simp only [covRadiiDistCheck, hm]
  · intro i hi
    simp only [covRadiiDistCheck, hm]
    rw [List.getD_eq_getElem?_getD, List.getD_eq_getElem?_getD,
      List.getElem?_set_ne (fun h => hi h.symm)]
  · simp only [covRadiiGraphCheck, hm]

/-- Witness for C2 amended at a concrete input: custom radius 3 exceeds
the tabulated radius 2 of the single metal, so both checks substitute. -/
theorem C2_custom_radius_amended_witness :
    singleMetalInd atomsC2 = some 0 ∧
    covRadiiDistCheck atomsC2 (some 3) =
      (atomsC2.map (fun a => a.rcov)).set 0 3 :=
  ⟨rfl, (C2_custom_radius_amended atomsC2 0 3 rfl).1⟩

theorem find?_first_of_prefix {α : Type _} (p : α → Bool) (pre post : List α)
    (k : α) (hpre : ∀ x ∈ pre, p x = false) (hk : p k = true) :
    List.find? p (pre ++ k :: post) = some k := by
  induction pre with
  | nil => simpa using List.find?_cons_of_pos post hk
  | cons a as ih =>
    have ha : ¬p a = true := by
      rw [hpre a (List.mem_cons_self a as)]
      exact Bool.false_ne_true
    rw [List.cons_append, List.find?_cons_of_neg _ ha]
    exact ih (fun x hx => hpre x (List.mem_cons_of_mem a hx))

/-- C8: Graph-distance check behaviour on a multi-atom structure: any NaN
position marks the structure unsane without scanning pairs; otherwise the
bond-order keys are scanned in order, the first pair beyond
`factor * (cov_radius i + cov_radius j)` is the only violation recorded
and the sane flag drops, and when no bonded pair violates the cutoff the
sane flag is left unchanged. -/
theorem C8_graph_sanity_checks (atoms : List CheckAtom)
    (keys : List (Nat × Nat)) (factor : ℚ) (mrad : Option ℚ)
    (priorSane : Bool) (hn : 1 < atoms.length) :
    (hasNaNPosit atoms = true →
      graphSanityChecks atoms keys factor mrad priorSane =
        ⟨false, true, none, none⟩) ∧
    (hasNaNPosit atoms = false →
      ((∀ k ∈ keys,
          graphViol atoms (covRadiiGraphCheck atoms mrad) factor k = false) →
        graphSanityChecks atoms keys factor mrad priorSane =
          ⟨priorSane, false, none, none⟩) ∧
      (∀ pre k post, keys = pre ++ k :: post →
        (∀ k0 ∈ pre,
          graphViol atoms (covRadiiGraphCheck atoms mrad) factor k0 = false) →
        graphViol atoms (covRadiiGraphCheck atoms mrad) factor k = true →
        graphSanityChecks atoms keys factor mrad priorSane =
          ⟨false, false, some factor,
            some ((k.1 - 1, k.2 - 1),
              atomDist2 atoms (k.1 - 1) (k.2 - 1) /
                ((covRadiiGraphCheck atoms mrad).getD (k.1 - 1) 0 +
                 (covRadiiGraphCheck atoms mrad).getD (k.2 - 1) 0) ^ 2)⟩)) := by
  have hgt : ¬atoms.length ≤ 1 := by omega
  constructor
  · intro hnan
    simp only [graphSanityChecks]
    rw [if_neg hgt, if_pos hnan]
  · intro hnonan
    constructor
    · intro hall
      simp only [graphSanityChecks]
      rw [if_neg hgt, if_neg (by rw [hnonan]; exact Bool.false_ne_true)]
      have hfind : keys.find?
          (fun k => graphViol atoms (covRadiiGraphCheck atoms mrad) factor k) =
          none := by
        rw [List.find?_eq_none]
        intro x hx
        rw [hall x hx]
        exact Bool.false_ne_true
      rw [hfind]
    · intro pre k post hkeys hpre hk
      simp only [graphSanityChecks]
      rw [if_neg hgt, if_neg (by rw [hnonan]; exact Bool.false_ne_true)]
      rw [hkeys, find?_first_of_prefix _ pre post k
        (fun x hx => hpre x hx) hk]

def atomsC8 : List CheckAtom :=
  [⟨[none, some 0, some 0], 7/10, false⟩,
   ⟨[some 2, some 0, some 0], 7/10, false⟩]

/-- Witness for C8 at a concrete input: a two-atom structure with a NaN
coordinate on the first atom is marked unsane with only the NaN flag. -/
theorem C8_graph_sanity_checks_witness :
    1 < atomsC8.length ∧ hasNaNPosit atomsC8 = true ∧
    graphSanityChecks atomsC8 [(1, 2)] (29/20) none true =
      ⟨false, true, none, none⟩ :=
  ⟨by decide, rfl,
   (C8_graph_sanity_checks atomsC8 [(1, 2)] (29/20) none true (by decide)).1 rfl⟩

/-! ### Metal geometry classification scoring (C9)

Source `Molecule.classify_metal_geo_type` (io_molecule.py lines 1220-1294).
The geometry catalog and the interatomic-angle computation live in
`io_core` (outside this file); the classification logic is modelled over
the resulting list of MAE losses, one entry per idealized template
registered for the coordination number. `np.argmin` is the first index
attaining the minimum, and `mae_losses[np.argsort(mae_losses)[1]]` is the
second entry of the losses in ascending value order, independent of the
tie order argsort chooses. -/

def minLoss : List ℚ → ℚ
  | [] => 0
  | x :: xs => xs.foldl min x

def argminIdx (l : List ℚ) : Nat :=
  l.findIdx (fun x => decide (x = minLoss l))

def sortedLosses (l : List ℚ) : List ℚ :=
  l.mergeSort (fun a b => decide (a ≤ b))

def secondLoss (l : List ℚ) : ℚ := (sortedLosses l).getD 1 0

structure GeoResult where
  geoIdx : Option Nat
  maeLoss : Option ℚ
  confidence : Option ℚ
  rawCN : Nat
  deriving DecidableEq, Repr

/-- Multi-metal code path (lines 1243-1264): geometry template at
`np.argmin`, loss at that index, confidence `1 - best/second` when at
least two templates exist, else 1; coordination numbers of 13 or more
report only the raw neighbor count. -/
def classifyMetalGeoMulti (cn : Nat) (losses : List ℚ) : GeoResult :=
  if cn < 13 then
    ⟨some (argminIdx losses), some (losses.getD (argminIdx losses) 0),
      some (if 2 ≤ losses.length then
        1 - losses.getD (argminIdx losses) 0 / secondLoss losses else 1), cn⟩
  else ⟨none, none, none, cn⟩

/-- Single-metal code path (lines 1266-1291): identical except confidence
is written `(second - best)/second`. -/
def classifyMetalGeoSingle (cn : Nat) (losses : List ℚ) : GeoResult :=
  if cn < 13 then
    ⟨some (argminIdx losses), some (losses.getD (argminIdx losses) 0),
      some (if 2 ≤ losses.length then
        (secondLoss losses - losses.getD (argminIdx losses) 0) /
          secondLoss losses
        else 1), cn⟩
  else ⟨none, none, none, cn⟩

theorem foldl_min_le_init (xs : List ℚ) (a : ℚ) : xs.foldl min a ≤ a := by
  induction xs generalizing a with
  | nil => simp
  | cons x xs ih =>
    simp only [List.foldl_cons]
    exact le_trans (ih (min a x)) (min_le_left a x)

theorem foldl_min_le_mem (xs : List ℚ) (a : ℚ) :
    ∀ x ∈ xs, xs.foldl min a ≤ x := by
  induction xs generalizing a with
  | nil =>
    intro x hx
    simp at hx
  | cons y ys ih =>
    intro x hx
    rcases List.mem_cons.mp hx with h | h
    · subst h
      simp only [List.foldl_cons]
      exact le_trans (foldl_min_le_init ys (min a x)) (min_le_right a x)
    · simp only [List.foldl_cons]
      exact ih (min a y) x h

theorem foldl_min_mem_or (xs : List ℚ) (a : ℚ) :
    xs.foldl min a = a ∨ xs.foldl min a ∈ xs := by
  induction xs generalizing a with
  | nil => exact Or.inl rfl
  | cons y ys ih =>
    simp only [List.foldl_cons]
    rcases le_total a y with hay | hya
    · rw [min_eq_left hay]
      rcases ih a with h | h
      · exact Or.inl h
      · exact Or.inr (List.mem_cons_of_mem y h)
    · rw [min_eq_right hya]
      rcases ih y with h | h
      · exact Or.inr (by rw [h]; exact List.mem_cons_self y ys)
      · exact Or.inr (List.mem_cons_of_mem y h)

theorem minLoss_mem (l : List ℚ) (h : l ≠ []) : minLoss l ∈ l := by
  cases l with
  | nil => exact absurd rfl h
  | cons x xs =>
    simp only [minLoss]
    rcases foldl_min_mem_or xs x with h1 | h1
    · rw [h1]
      exact List.mem_cons_self x xs
    · exact List.mem_cons_of_mem x h1

theorem minLoss_le (l : List ℚ) : ∀ x ∈ l, minLoss l ≤ x := by
  intro x hx
  cases l with
  | nil => simp at hx
  | cons y ys =>
    simp only [minLoss]
    rcases List.mem_cons.mp hx with h | h
    · rw [h]
      exact foldl_min_le_init ys y
    · exact foldl_min_le_mem ys y x h

theorem getD_argminIdx (l : List ℚ) (h : l ≠ []) :
    l.getD (argminIdx l) 0 = minLoss l := by
  have hex : ∃ x ∈ l, (fun x => decide (x = minLoss l)) x = true :=
    ⟨minLoss l, minLoss_mem l h, by simp⟩
  have hlt : l.findIdx (fun x => decide (x = minLoss l)) < l.length :=
    List.findIdx_lt_length_of_exists hex
  have hp := @List.findIdx_getElem _ (fun x => decide (x = minLoss l)) l hlt
  rw [decide_eq_true_eq] at hp
  unfold argminIdx
  rw [List.getD_eq_getElem?_getD, List.getElem?_eq_getElem hlt]
  exact hp

/-- C9: Geometry classification scoring: below coordination number 13 the
assigned template index is the argmin of the MAE losses and the recorded
loss is the minimum of the list; confidence is `1 - best/second-best`
whenever at least two templates exist and 1 otherwise; the single-metal
and multi-metal code paths compute the same result (their two confidence
formulas agree whenever the second-best MAE is nonzero); at coordination
number 13 or more no template is assigned and only the raw neighbor count
is reported. -/
theorem C9_classify_metal_geo (cn : Nat) (losses : List ℚ)
    (hne : losses ≠ []) :
    (cn < 13 →
      (classifyMetalGeoMulti cn losses).geoIdx = some (argminIdx losses) ∧
      (classifyMetalGeoMulti cn losses).maeLoss = some (minLoss losses) ∧
      (∀ x ∈ losses, minLoss losses ≤ x)) ∧
    (cn < 13 → 2 ≤ losses.length →
      (classifyMetalGeoMulti cn losses).confidence =
        some (1 - minLoss losses / secondLoss losses)) ∧
    (cn < 13 → losses.length = 1 →
      (classifyMetalGeoMulti cn losses).confidence = some 1) ∧
    (secondLoss losses ≠ 0 →
      classifyMetalGeoSingle cn losses = classifyMetalGeoMulti cn losses) ∧
    (13 ≤ cn →
      classifyMetalGeoMulti cn losses = ⟨none, none, none, cn⟩ ∧
      classifyMetalGeoSingle cn losses = ⟨none, none, none, cn⟩) := by
  have hmin := getD_argminIdx losses hne
  refine ⟨?_, ?_, ?_, ?_, ?_⟩
  · intro hcn
    unfold classifyMetalGeoMulti
    rw [if_pos hcn]
    refine ⟨rfl, ?_, minLoss_le losses⟩
    show some (losses.getD (argminIdx losses) 0) = some (minLoss losses)
    rw [hmin]
  · intro hcn hlen
    unfold classifyMetalGeoMulti
    rw [if_pos hcn]
    show some (if 2 ≤ losses.length then
      1 - losses.getD (argminIdx losses) 0 / secondLoss losses else 1) =
      some (1 - minLoss losses / secondLoss losses)
    rw [if_pos hlen, hmin]
  · intro hcn hlen
    unfold classifyMetalGeoMulti
    rw [if_pos hcn]
    show some (if 2 ≤ losses.length then
      1 - losses.getD (argminIdx losses) 0 / secondLoss losses else 1) =
      some 1
    rw [if_neg (by omega)]
  · intro hs
    unfold classifyMetalGeoSingle classifyMetalGeoMulti
    by_cases hcn : cn < 13
    · rw [if_pos hcn, if_pos hcn]
      have hconf : (if 2 ≤ losses.length then
          (secondLoss losses - losses.getD (argminIdx losses) 0) /
            secondLoss losses
          else 1) =
          (if 2 ≤ losses.length then
          1 - losses.getD (argminIdx losses) 0 / secondLoss losses else 1) := by
        by_cases hlen : 2 ≤ losses.length
        · rw [if_pos hlen, if_pos hlen, sub_div, div_self hs]
        · rw [if_neg hlen, if_neg hlen]
      rw [hconf]
    · rw [if_neg hcn, if_neg hcn]
  · intro hcn
    have h1 : ¬cn < 13 := by omega
    constructor
    · unfold classifyMetalGeoMulti
      rw [if_neg h1]
    · unfold classifyMetalGeoSingle
      rw [if_neg h1]

def lossesW : List ℚ := [1, 0]

/-- Witness for C9 at a concrete input: two templates with losses 1 and 0
at coordination number 6, and the unclassified branch at 13. -/
theorem C9_classify_metal_geo_witness :
    lossesW ≠ [] ∧
    (6 < 13 →
      (classifyMetalGeoMulti 6 lossesW).geoIdx = some (argminIdx lossesW) ∧
      (classifyMetalGeoMulti 6 lossesW).maeLoss = some (minLoss lossesW) ∧
      (∀ x ∈ lossesW, minLoss lossesW ≤ x)) ∧
    (13 ≤ 13 →
      classifyMetalGeoMulti 13 lossesW = ⟨none, none, none, 13⟩ ∧
      classifyMetalGeoSingle 13 lossesW = ⟨none, none, none, 13⟩) :=
  ⟨by simp [lossesW],
   (C9_classify_metal_geo 6 lossesW (by simp [lossesW])).1,
   (C9_classify_metal_geo 13 lossesW (by simp [lossesW])).2.2.2.2⟩

end Architector
